import Mathlib

/-!
Verification development for the ferriscope Python package
(`ferrum_scrape/extractor.py`, `ferrum_scrape/async_extractor.py`,
`scrape_tools/constants.py`).

The Python classes `WebExtractor` and `AsyncWebExtractor` are thin stateful
builders over an opaque native engine.  We embed their visible state as an
explicit record, each configuration method as a state transformer (methods
that emit `warnings.warn` diagnostics additionally return the list of
messages emitted by that call), and `run` as a function parametrised by the
external engine (modelled as a function from the frozen configuration to a
result or an error).  `run` also reports how many times the engine was
invoked, so that "the Engine is never invoked" is expressible.
-/

namespace Ferriscope

/-- Source `scrape_tools/constants.py`: the fixed advisory message used by the
field-omission diagnostic (apostrophes and inner double quotes written with
escape sequences). -/
def FIELDS_WARNING_MESSAGE : String :=
  "No \x27fields\x27 parameter provided. For optimization purposes, only required fields should be extracted. If all fields are required, explicitly pass fields=[\"all\"] to ignore this warning. "

/-- The observable state of a `WebExtractor` / `AsyncWebExtractor` together
with the configuration it has pushed into the underlying native extractor:
the Python-side `_activities_set` flag, the per-activity configuration, the
HTTP options and the robots-checking state (the in-memory robots cache is
the "local tier" of the two-tier robots cache). -/
structure ExtractorState where
  url : String
  html : Option String
  activitiesSet : Bool
  textEnabled : Bool
  textLanguageDetection : Bool
  linksFields : Option (List String)
  socialsFields : Option (List String)
  videoFields : Option (List String)
  productFields : Option (List String)
  articleFields : Option (List String)
  timeoutSecs : Option Int
  userAgent : Option String
  randomUserAgent : Bool
  headers : List (String × String)
  robotsCheckEnabled : Bool
  robotsRedisUrl : Option String
  robotsRedisTtlSecs : Int
  robotsManualTxt : Option String
  robotsLocalCache : List (String × String)

/-- Embeds `WebExtractor.__init__(url, html)`: fresh state, no activities configured. -/
def WebExtractor.init (url : String) (html : Option String) : ExtractorState :=
  { url := url
    html := html
    activitiesSet := false
    textEnabled := false
    textLanguageDetection := false
    linksFields := none
    socialsFields := none
    videoFields := none
    productFields := none
    articleFields := none
    timeoutSecs := none
    userAgent := none
    randomUserAgent := false
    headers := []
    robotsCheckEnabled := false
    robotsRedisUrl := none
    robotsRedisTtlSecs := 1800
    robotsManualTxt := none
    robotsLocalCache := [] }

/-- Embeds `WebExtractor.extract_text(language_detection)`. -/
def WebExtractor.extract_text (s : ExtractorState) (language_detection : Bool) :
    ExtractorState :=
  { s with textEnabled := true
           textLanguageDetection := language_detection
           activitiesSet := true }

/-- Embeds `WebExtractor.extract_links(internal, external, all)`: computes the
effective link-filter list exactly as the source's if/elif chain does. -/
def WebExtractor.extract_links (s : ExtractorState)
    (internal external all : Bool) : ExtractorState :=
  let fields :=
    if all || (internal && external) then ["all"]
    else if internal then ["internal"]
    else if external then ["external"]
    else ["all"]
  { s with linksFields := some fields, activitiesSet := true }

/-- Embeds `WebExtractor.extract_socials(fields)`: when `fields` is `None` a
`UserWarning` with `FIELDS_WARNING_MESSAGE` is emitted and `fields` becomes
`["all"]`; otherwise the list is used verbatim.  The second component is the
list of warning messages emitted by the call. -/
def WebExtractor.extract_socials (s : ExtractorState)
    (fields : Option (List String)) : ExtractorState × List String :=
  match fields with
  | none =>
      ({ s with socialsFields := some ["all"], activitiesSet := true },
       [FIELDS_WARNING_MESSAGE])
  | some fs =>
      ({ s with socialsFields := some fs, activitiesSet := true }, [])

/-- Embeds `WebExtractor.extract_video(fields)`. -/
def WebExtractor.extract_video (s : ExtractorState)
    (fields : Option (List String)) : ExtractorState × List String :=
  match fields with
  | none =>
      ({ s with videoFields := some ["all"], activitiesSet := true },
       [FIELDS_WARNING_MESSAGE])
  | some fs =>
      ({ s with videoFields := some fs, activitiesSet := true }, [])

/-- Embeds `WebExtractor.extract_product(fields)`. -/
def WebExtractor.extract_product (s : ExtractorState)
    (fields : Option (List String)) : ExtractorState × List String :=
  match fields with
  | none =>
      ({ s with productFields := some ["all"], activitiesSet := true },
       [FIELDS_WARNING_MESSAGE])
  | some fs =>
      ({ s with productFields := some fs, activitiesSet := true }, [])

/-- Embeds `WebExtractor.extract_article(fields)`. -/
def WebExtractor.extract_article (s : ExtractorState)
    (fields : Option (List String)) : ExtractorState × List String :=
  match fields with
  | none =>
      ({ s with articleFields := some ["all"], activitiesSet := true },
       [FIELDS_WARNING_MESSAGE])
  | some fs =>
      ({ s with articleFields := some fs, activitiesSet := true }, [])

/-- Python's `int()` applied to a real number: truncation toward zero.
Python floats are a subset of the rationals, so the argument is modelled
as `ℚ`. -/
def pyInt (q : ℚ) : Int :=
  if 0 ≤ q then ⌊q⌋ else ⌈q⌉

/-- Embeds `WebExtractor.set_timeout(timeout_secs)`: passes `int(timeout_secs)`
to the native extractor. -/
def WebExtractor.set_timeout (s : ExtractorState) (timeout_secs : ℚ) :
    ExtractorState :=
  { s with timeoutSecs := some (pyInt timeout_secs) }

/-- Embeds `WebExtractor.set_user_agent(user_agent)`. -/
def WebExtractor.set_user_agent (s : ExtractorState) (user_agent : String) :
    ExtractorState :=
  { s with userAgent := some user_agent }

/-- Embeds `WebExtractor.set_random_user_agent(enabled)`. -/
def WebExtractor.set_random_user_agent (s : ExtractorState) (enabled : Bool) :
    ExtractorState :=
  { s with randomUserAgent := enabled }

/-- Embeds `WebExtractor.add_header(name, value)`. -/
def WebExtractor.add_header (s : ExtractorState) (name value : String) :
    ExtractorState :=
  { s with headers := s.headers ++ [(name, value)] }

/-- Embeds `WebExtractor.set_headers(headers)`: replaces all existing headers. -/
def WebExtractor.set_headers (s : ExtractorState)
    (headers : List (String × String)) : ExtractorState :=
  { s with headers := headers }

/-- Embeds `WebExtractor.enable_robots_check()`. -/
def WebExtractor.enable_robots_check (s : ExtractorState) : ExtractorState :=
  { s with robotsCheckEnabled := true }

/-- Embeds `WebExtractor.enable_robots_check_with_redis(redis_url)`. -/
def WebExtractor.enable_robots_check_with_redis (s : ExtractorState)
    (redis_url : String) : ExtractorState :=
  { s with robotsCheckEnabled := true, robotsRedisUrl := some redis_url }

/-- Embeds `WebExtractor.set_robots_redis_ttl(ttl_secs)`. -/
def WebExtractor.set_robots_redis_ttl (s : ExtractorState) (ttl_secs : Int) :
    ExtractorState :=
  { s with robotsRedisTtlSecs := ttl_secs }

/-- Embeds `WebExtractor.set_robots_txt(content)`. -/
def WebExtractor.set_robots_txt (s : ExtractorState) (content : String) :
    ExtractorState :=
  { s with robotsManualTxt := some content }

/-- Embeds `WebExtractor.clear_robots_cache()`: empties the in-memory (local)
robots cache tier. -/
def WebExtractor.clear_robots_cache (s : ExtractorState) : ExtractorState :=
  { s with robotsLocalCache := [] }

/-- Embeds `WebExtractor.remove_robots_from_redis()`: affects only the shared
(Redis) tier, which lives outside this state; the local state is unchanged. -/
def WebExtractor.remove_robots_from_redis (s : ExtractorState) :
    ExtractorState :=
  s

/-- The errors `run()` can surface: the zero-activities `RuntimeError`
raised by the Python wrapper before the engine is consulted, or an error
propagated from the engine itself. -/
inductive RunError where
  | noActivities
  | engine (msg : String)
deriving DecidableEq

/-- Embeds `WebExtractor.run()`: raises the zero-activities error when
`_activities_set` is false, otherwise invokes the engine once on the frozen
configuration.  The second component counts engine invocations. -/
def WebExtractor.run {R : Type} (engine : ExtractorState → Except String R)
    (s : ExtractorState) : Except RunError R × Nat :=
  if s.activitiesSet = false then
    (Except.error RunError.noActivities, 0)
  else
    match engine s with
    | Except.ok r => (Except.ok r, 1)
    | Except.error e => (Except.error (RunError.engine e), 1)

/-- Embeds `WebExtractor.__exit__(exc_type, exc_val, exc_tb)` (embedded under the
name `exitHandler`): clears the in-memory robots cache and returns `False`
(exceptions are not suppressed).  The optional argument is the exception, if
any, raised inside the `with` block. -/
def WebExtractor.exitHandler (s : ExtractorState) (_exc : Option String) :
    ExtractorState × Bool :=
  (WebExtractor.clear_robots_cache s, false)

/-- Python's `with WebExtractor(...) as e: body` protocol over the embedded
state: run the body (which returns the state at the point it finished or
raised, plus the exception it raised, if any), call `__exit__` with that
exception, and propagate the exception unless `__exit__` returned `True`. -/
def runWithScope (s : ExtractorState)
    (body : ExtractorState → ExtractorState × Option String) :
    ExtractorState × Option String :=
  let r := body s
  let e := WebExtractor.exitHandler r.1 r.2
  (e.1, if e.2 then none else r.2)

/-!
`AsyncWebExtractor` (`async_extractor.py`) duplicates the configuration
methods of `WebExtractor` with identical bodies; `run` performs the same
zero-activities validation and then executes the same native call (merely
off-loaded to a thread pool, which does not change its value).
-/

/-- Embeds `AsyncWebExtractor.__init__(url, html)`. -/
def AsyncWebExtractor.init (url : String) (html : Option String) :
    ExtractorState :=
  { url := url
    html := html
    activitiesSet := false
    textEnabled := false
    textLanguageDetection := false
    linksFields := none
    socialsFields := none
    videoFields := none
    productFields := none
    articleFields := none
    timeoutSecs := none
    userAgent := none
    randomUserAgent := false
    headers := []
    robotsCheckEnabled := false
    robotsRedisUrl := none
    robotsRedisTtlSecs := 1800
    robotsManualTxt := none
    robotsLocalCache := [] }

/-- Embeds `AsyncWebExtractor.extract_text(language_detection)`. -/
def AsyncWebExtractor.extract_text (s : ExtractorState)
    (language_detection : Bool) : ExtractorState :=
  { s with textEnabled := true
           textLanguageDetection := language_detection
           activitiesSet := true }

/-- Embeds `AsyncWebExtractor.extract_links(internal, external, all)`. -/
def AsyncWebExtractor.extract_links (s : ExtractorState)
    (internal external all : Bool) : ExtractorState :=
  let fields :=
    if all || (internal && external) then ["all"]
    else if internal then ["internal"]
    else if external then ["external"]
    else ["all"]
  { s with linksFields := some fields, activitiesSet := true }

/-- Embeds `AsyncWebExtractor.extract_socials(fields)`. -/
def AsyncWebExtractor.extract_socials (s : ExtractorState)
    (fields : Option (List String)) : ExtractorState × List String :=
  match fields with
  | none =>
      ({ s with socialsFields := some ["all"], activitiesSet := true },
       [FIELDS_WARNING_MESSAGE])
  | some fs =>
      ({ s with socialsFields := some fs, activitiesSet := true }, [])

/-- Embeds `AsyncWebExtractor.extract_video(fields)`. -/
def AsyncWebExtractor.extract_video (s : ExtractorState)
    (fields : Option (List String)) : ExtractorState × List String :=
  match fields with
  | none =>
      ({ s with videoFields := some ["all"], activitiesSet := true },
       [FIELDS_WARNING_MESSAGE])
  | some fs =>
      ({ s with videoFields := some fs, activitiesSet := true }, [])

/-- Embeds `AsyncWebExtractor.extract_product(fields)`. -/
def AsyncWebExtractor.extract_product (s : ExtractorState)
    (fields : Option (List String)) : ExtractorState × List String :=
  match fields with
  | none =>
      ({ s with productFields := some ["all"], activitiesSet := true },
       [FIELDS_WARNING_MESSAGE])
  | some fs =>
      ({ s with productFields := some fs, activitiesSet := true }, [])

/-- Embeds `AsyncWebExtractor.extract_article(fields)`. -/
def AsyncWebExtractor.extract_article (s : ExtractorState)
    (fields : Option (List String)) : ExtractorState × List String :=
  match fields with
  | none =>
      ({ s with articleFields := some ["all"], activitiesSet := true },
       [FIELDS_WARNING_MESSAGE])
  | some fs =>
      ({ s with articleFields := some fs, activitiesSet := true }, [])

/-- Embeds `AsyncWebExtractor.set_timeout(timeout_secs)`. -/
def AsyncWebExtractor.set_timeout (s : ExtractorState) (timeout_secs : ℚ) :
    ExtractorState :=
  { s with timeoutSecs := some (pyInt timeout_secs) }

/-- Embeds `AsyncWebExtractor.run()`: identical validation and engine call as the
synchronous `run`, executed in a thread pool. -/
def AsyncWebExtractor.run {R : Type} (engine : ExtractorState → Except String R)
    (s : ExtractorState) : Except RunError R × Nat :=
  if s.activitiesSet = false then
    (Except.error RunError.noActivities, 0)
  else
    match engine s with
    | Except.ok r => (Except.ok r, 1)
    | Except.error e => (Except.error (RunError.engine e), 1)

/-!
A reified alphabet of the configuration calls of the two extractor classes,
used to quantify over arbitrary configuration sequences.
-/

/-- One configuration call on a `WebExtractor` / `AsyncWebExtractor`. -/
inductive ConfigCall where
  | extractText (language_detection : Bool)
  | extractLinks (internal external all : Bool)
  | extractSocials (fields : Option (List String))
  | extractVideo (fields : Option (List String))
  | extractProduct (fields : Option (List String))
  | extractArticle (fields : Option (List String))
  | setTimeout (timeout_secs : ℚ)
  | setUserAgent (user_agent : String)
  | setRandomUserAgent (enabled : Bool)
  | addHeader (name value : String)
  | setHeaders (headers : List (String × String))
  | enableRobotsCheck
  | enableRobotsCheckWithRedis (redis_url : String)
  | setRobotsRedisTtl (ttl_secs : Int)
  | setRobotsTxt (content : String)
  | clearRobotsCache
  | removeRobotsFromRedis

/-- Whether a configuration call is one of the `extract_*` activity calls. -/
def ConfigCall.isExtract : ConfigCall → Bool
  | ConfigCall.extractText _ => true
  | ConfigCall.extractLinks _ _ _ => true
  | ConfigCall.extractSocials _ => true
  | ConfigCall.extractVideo _ => true
  | ConfigCall.extractProduct _ => true
  | ConfigCall.extractArticle _ => true
  | _ => false

/-- Interpret one configuration call on a `WebExtractor` state (warning
output of the metadata calls discarded, as it does not affect state). -/
def applyCall (s : ExtractorState) : ConfigCall → ExtractorState
  | ConfigCall.extractText ld => WebExtractor.extract_text s ld
  | ConfigCall.extractLinks i e a => WebExtractor.extract_links s i e a
  | ConfigCall.extractSocials f => (WebExtractor.extract_socials s f).1
  | ConfigCall.extractVideo f => (WebExtractor.extract_video s f).1
  | ConfigCall.extractProduct f => (WebExtractor.extract_product s f).1
  | ConfigCall.extractArticle f => (WebExtractor.extract_article s f).1
  | ConfigCall.setTimeout t => WebExtractor.set_timeout s t
  | ConfigCall.setUserAgent ua => WebExtractor.set_user_agent s ua
  | ConfigCall.setRandomUserAgent b => WebExtractor.set_random_user_agent s b
  | ConfigCall.addHeader n v => WebExtractor.add_header s n v
  | ConfigCall.setHeaders hs => WebExtractor.set_headers s hs
  | ConfigCall.enableRobotsCheck => WebExtractor.enable_robots_check s
  | ConfigCall.enableRobotsCheckWithRedis u =>
      WebExtractor.enable_robots_check_with_redis s u
  | ConfigCall.setRobotsRedisTtl t => WebExtractor.set_robots_redis_ttl s t
  | ConfigCall.setRobotsTxt c => WebExtractor.set_robots_txt s c
  | ConfigCall.clearRobotsCache => WebExtractor.clear_robots_cache s
  | ConfigCall.removeRobotsFromRedis => WebExtractor.remove_robots_from_redis s

/-- Interpret a sequence of configuration calls, first call first. -/
def applyCalls (s : ExtractorState) (calls : List ConfigCall) : ExtractorState :=
  calls.foldl applyCall s

/-- Interpret one configuration call through the `AsyncWebExtractor`
methods (whose bodies are identical to the synchronous ones). -/
def applyCallAsync (s : ExtractorState) : ConfigCall → ExtractorState
  | ConfigCall.extractText ld => AsyncWebExtractor.extract_text s ld
  | ConfigCall.extractLinks i e a => AsyncWebExtractor.extract_links s i e a
  | ConfigCall.extractSocials f => (AsyncWebExtractor.extract_socials s f).1
  | ConfigCall.extractVideo f => (AsyncWebExtractor.extract_video s f).1
  | ConfigCall.extractProduct f => (AsyncWebExtractor.extract_product s f).1
  | ConfigCall.extractArticle f => (AsyncWebExtractor.extract_article s f).1
  | ConfigCall.setTimeout t => AsyncWebExtractor.set_timeout s t
  | ConfigCall.setUserAgent ua => WebExtractor.set_user_agent s ua
  | ConfigCall.setRandomUserAgent b => WebExtractor.set_random_user_agent s b
  | ConfigCall.addHeader n v => WebExtractor.add_header s n v
  | ConfigCall.setHeaders hs => WebExtractor.set_headers s hs
  | ConfigCall.enableRobotsCheck => WebExtractor.enable_robots_check s
  | ConfigCall.enableRobotsCheckWithRedis u =>
      WebExtractor.enable_robots_check_with_redis s u
  | ConfigCall.setRobotsRedisTtl t => WebExtractor.set_robots_redis_ttl s t
  | ConfigCall.setRobotsTxt c => WebExtractor.set_robots_txt s c
  | ConfigCall.clearRobotsCache => WebExtractor.clear_robots_cache s
  | ConfigCall.removeRobotsFromRedis => WebExtractor.remove_robots_from_redis s

/-- Interpret a sequence of configuration calls on an `AsyncWebExtractor`. -/
def applyCallsAsync (s : ExtractorState) (calls : List ConfigCall) :
    ExtractorState :=
  calls.foldl applyCallAsync s

/-!
`batch_extract` (`async_extractor.py`): fans the URL list out to
independent `AsyncWebExtractor`s under an `asyncio.Semaphore(max_concurrent)`
and collects results with `asyncio.gather(*tasks, return_exceptions=True)`,
then drops `None` / exception entries.

`asyncio.gather` stores each task's outcome in the slot matching the task's
position in its argument list and returns the slots in positional order,
whatever order the tasks complete in.  To make the claims about completion
order statable, the model below takes an explicit completion schedule
(`completesAt`, task index to completion time), sorts the tasks into their
completion order (`sortByKey` is a stable insertion sort), and then reads
the slots back out in positional index order exactly as `gather` does.
-/

/-- The keyword flags of `batch_extract` (defaults in the source:
`extract_text=False`, link flags `False`, the four metadata `*_all` flags
`True`). -/
structure BatchOptions where
  extract_text : Bool
  language_detection : Bool
  extract_links_internal : Bool
  extract_links_external : Bool
  extract_links_all : Bool
  extract_socials_all : Bool
  extract_video_all : Bool
  extract_product_all : Bool
  extract_article_all : Bool

/-- The body of `extract_one(url)` inside `batch_extract`: build a fresh
`AsyncWebExtractor`, apply the flag-guarded configuration calls, then run
it inside `try/except`, turning any exception into `None`. -/
def extract_one {R : Type} (engine : ExtractorState → Except String R)
    (opts : BatchOptions) (url : String) : Option R :=
  let s0 := AsyncWebExtractor.init url none
  let s1 := if opts.extract_text then
      AsyncWebExtractor.extract_text s0 opts.language_detection else s0
  let s2 := if opts.extract_links_internal || opts.extract_links_external
      || opts.extract_links_all then
      AsyncWebExtractor.extract_links s1 opts.extract_links_internal
        opts.extract_links_external opts.extract_links_all else s1
  let s3 := if opts.extract_socials_all then
      (AsyncWebExtractor.extract_socials s2 none).1 else s2
  let s4 := if opts.extract_video_all then
      (AsyncWebExtractor.extract_video s3 none).1 else s3
  let s5 := if opts.extract_product_all then
      (AsyncWebExtractor.extract_product s4 none).1 else s4
  let s6 := if opts.extract_article_all then
      (AsyncWebExtractor.extract_article s5 none).1 else s5
  match (AsyncWebExtractor.run engine s6).1 with
  | Except.ok r => some r
  | Except.error _ => none

/-- Embeds `batch_extract(urls, ..., max_concurrent)`: the value of the returned
list (the concurrency cap bounds scheduling, not the result value, so it is
an unused parameter here; the schedule-aware model below confirms this). -/
def batch_extract {R : Type} (engine : ExtractorState → Except String R)
    (urls : List String) (opts : BatchOptions) (_max_concurrent : Nat) :
    List R :=
  (urls.map (extract_one engine opts)).filterMap id

/-- Insert one task into a completion-time-sorted task list (stable:
a task is placed after earlier tasks with the same completion time). -/
def sortInsert {α : Type} (key : α → Nat) (x : α) : List α → List α
  | [] => [x]
  | y :: ys => if key x < key y then x :: y :: ys else y :: sortInsert key x ys

/-- Stable insertion sort by a `Nat` key. -/
def sortByKey {α : Type} (key : α → Nat) : List α → List α
  | [] => []
  | x :: xs => sortInsert key x (sortByKey key xs)

/-- The task list `[extract_one(url) for url in urls]` with positional
indices starting at `b` and the completion time of each task attached:
entries are `(index, completion time, task outcome)`. -/
def mkTasks {R : Type} (engine : ExtractorState → Except String R)
    (opts : BatchOptions) (completesAt : Nat → Nat) :
    Nat → List String → List (Nat × Nat × Option R)
  | _, [] => []
  | b, u :: us =>
      (b, completesAt b, extract_one engine opts u) ::
        mkTasks engine opts completesAt (b + 1) us

/-- The `asyncio.gather` slot read-out composed with the final
`[r for r in results if ...]` filter: walk the slot indices `b, b+1, ...`
in positional order, look each index up in the completed-task list, and
keep the successful outcomes. -/
def gatherSlots {R : Type} (arrivals : List (Nat × Nat × Option R)) :
    Nat → Nat → List R
  | _, 0 => []
  | b, n + 1 =>
      match (arrivals.find? (fun t => t.1 == b)).bind (fun t => t.2.2) with
      | some r => r :: gatherSlots arrivals (b + 1) n
      | none => gatherSlots arrivals (b + 1) n

/-- Embeds `batch_extract` under an explicit completion schedule: tasks finish in
the order given by `completesAt`, `gather` slots them by position, and the
result filter keeps the successes in slot order. -/
def batch_extract_timed {R : Type} (engine : ExtractorState → Except String R)
    (urls : List String) (opts : BatchOptions) (completesAt : Nat → Nat) :
    List R :=
  gatherSlots
    (sortByKey (fun t => t.2.1) (mkTasks engine opts completesAt 0 urls))
    0 urls.length

/-- Modelled from the spec: the spec's §4.5 output order, in which the
retained successful entries appear in the order their tasks complete
(completion-time order of the non-failed subset).  Stated from the spec's
words for comparison with `batch_extract_timed`. -/
def batchCompletionOrderSpec {R : Type}
    (engine : ExtractorState → Except String R) (urls : List String)
    (opts : BatchOptions) (completesAt : Nat → Nat) : List R :=
  (sortByKey (fun t => t.2.1) (mkTasks engine opts completesAt 0 urls)).filterMap
    (fun t => t.2.2)

/-!
The semaphore discipline of `batch_extract`: each task executes its whole
body inside `async with semaphore`, so a task is "in flight" exactly while
it holds one of the `max_concurrent` semaphore permits.  The scheduler is
modelled as a step relation on the counts of pending / in-flight /
finished tasks; acquiring the semaphore requires a free permit.
-/

/-- Scheduler state of one `batch_extract` call: how many tasks have not
yet entered the semaphore, how many are currently holding it (between
configuration and completion of `run`), and how many have finished
(successfully or not). -/
structure BatchSchedState where
  pending : Nat
  inflight : Nat
  finished : Nat

/-- One scheduler step under concurrency cap `cap`
(`asyncio.Semaphore(cap)`): a pending task may start only when a permit is
free (`inflight < cap`); an in-flight task may finish (successfully or by
raising), releasing its permit. -/
inductive BatchStep (cap : Nat) : BatchSchedState → BatchSchedState → Prop where
  | start (s : BatchSchedState) (hp : 0 < s.pending) (hc : s.inflight < cap) :
      BatchStep cap s ⟨s.pending - 1, s.inflight + 1, s.finished⟩
  | finish (s : BatchSchedState) (hi : 0 < s.inflight) :
      BatchStep cap s ⟨s.pending, s.inflight - 1, s.finished + 1⟩

/-- The scheduler states reachable in a `batch_extract` call over `n`
targets with concurrency cap `cap`. -/
inductive BatchReachable (cap n : Nat) : BatchSchedState → Prop where
  | init : BatchReachable cap n ⟨n, 0, 0⟩
  | step (s s2 : BatchSchedState) (h : BatchReachable cap n s)
      (hs : BatchStep cap s s2) : BatchReachable cap n s2

/-!
Helper lemmas shared by several claim theorems.
-/

/-- The two classes build identical fresh states. -/
theorem asyncInit_eq_init : AsyncWebExtractor.init = WebExtractor.init := rfl

/-- The `AsyncWebExtractor` configuration methods have bodies identical to
the synchronous ones, call by call. -/
theorem applyCallAsync_eq_applyCall : applyCallAsync = applyCall := by
  funext s c
  cases c <;> rfl

/-- Embeds `AsyncWebExtractor.run` computes the same value as `WebExtractor.run`. -/
theorem asyncRun_eq_run {R : Type} (engine : ExtractorState → Except String R)
    (s : ExtractorState) :
    AsyncWebExtractor.run engine s = WebExtractor.run engine s := rfl

/-- Every configuration call preserves a set `_activities_set` flag. -/
theorem applyCall_activitiesSet_true (s : ExtractorState) (c : ConfigCall)
    (h : s.activitiesSet = true) : (applyCall s c).activitiesSet = true := by
  cases c with
  | extractText ld => rfl
  | extractLinks i e a => rfl
  | extractSocials f => cases f <;> rfl
  | extractVideo f => cases f <;> rfl
  | extractProduct f => cases f <;> rfl
  | extractArticle f => cases f <;> rfl
  | setTimeout t => exact h
  | setUserAgent ua => exact h
  | setRandomUserAgent b => exact h
  | addHeader n v => exact h
  | setHeaders hs => exact h
  | enableRobotsCheck => exact h
  | enableRobotsCheckWithRedis u => exact h
  | setRobotsRedisTtl t => exact h
  | setRobotsTxt txt => exact h
  | clearRobotsCache => exact h
  | removeRobotsFromRedis => exact h

/-- A set `_activities_set` flag survives any sequence of configuration
calls. -/
theorem applyCalls_activitiesSet_true (calls : List ConfigCall) :
    ∀ s : ExtractorState, s.activitiesSet = true →
      (applyCalls s calls).activitiesSet = true := by
  induction calls with
  | nil => intro s h; exact h
  | cons c cs ih =>
      intro s h
      exact ih (applyCall s c) (applyCall_activitiesSet_true s c h)

/-- A configuration call that is not an `extract_*` call leaves a clear
`_activities_set` flag clear. -/
theorem applyCall_activitiesSet_false (s : ExtractorState) (c : ConfigCall)
    (h : s.activitiesSet = false) (hc : c.isExtract = false) :
    (applyCall s c).activitiesSet = false := by
  cases c <;> simp [ConfigCall.isExtract] at hc <;> exact h

/-- Without any `extract_*` call, `_activities_set` stays clear. -/
theorem applyCalls_activitiesSet_false (calls : List ConfigCall) :
    ∀ s : ExtractorState, s.activitiesSet = false →
      (∀ c ∈ calls, c.isExtract = false) →
      (applyCalls s calls).activitiesSet = false := by
  induction calls with
  | nil => intro s h _; exact h
  | cons c cs ih =>
      intro s h hall
      exact ih (applyCall s c)
        (applyCall_activitiesSet_false s c h (hall c (List.mem_cons_self c cs)))
        (fun d hd => hall d (List.mem_cons_of_mem c hd))

/-- Length of `filterMap id`: the entries minus the `none`s. -/
theorem length_filterMap_id {R : Type} : ∀ l : List (Option R),
    (l.filterMap id).length = l.length - l.countP (fun o => o.isNone) := by
  intro l
  induction l with
  | nil => rfl
  | cons o os ih =>
      have hc := List.countP_le_length
        (p := fun o : Option R => o.isNone) (l := os)
      cases o <;> simp [List.countP_cons, ih]
      all_goals omega

/-- Inserting into a sorted task list permutes consing. -/
theorem sortInsert_perm {α : Type} (key : α → Nat) (x : α) :
    ∀ l : List α, List.Perm (sortInsert key x l) (x :: l) := by
  intro l
  induction l with
  | nil => exact List.Perm.refl [x]
  | cons y ys ih =>
      by_cases h : key x < key y
      · simp only [sortInsert, if_pos h]
        exact List.Perm.refl (x :: y :: ys)
      · simp only [sortInsert, if_neg h]
        exact (List.Perm.cons y ih).trans (List.Perm.swap x y ys)

/-- Sorting the task list into completion order permutes it. -/
theorem sortByKey_perm {α : Type} (key : α → Nat) :
    ∀ l : List α, List.Perm (sortByKey key l) l := by
  intro l
  induction l with
  | nil => exact List.Perm.refl []
  | cons x xs ih =>
      exact (sortInsert_perm key x (sortByKey key xs)).trans
        (List.Perm.cons x ih)

/-- In a list with at most one entry satisfying `p`, any two members
satisfying `p` are equal. -/
theorem eq_of_countP_le_one {α : Type} (p : α → Bool) :
    ∀ l : List α, l.countP p ≤ 1 →
      ∀ x ∈ l, p x = true → ∀ y ∈ l, p y = true → x = y := by
  intro l
  induction l with
  | nil => intro _ x hx; exact absurd hx (List.not_mem_nil x)
  | cons a as ih =>
      intro hc x hx hpx y hy hpy
      rw [List.countP_cons] at hc
      cases hpa : p a with
      | true =>
          rw [hpa, if_pos rfl] at hc
          have hzero : as.countP p = 0 := by omega
          have hnone : ∀ z ∈ as, ¬p z = true := List.countP_eq_zero.mp hzero
          have hxa : x = a := by
            rcases List.mem_cons.mp hx with h | h
            · exact h
            · exact absurd hpx (hnone x h)
          have hya : y = a := by
            rcases List.mem_cons.mp hy with h | h
            · exact h
            · exact absurd hpy (hnone y h)
          rw [hxa, hya]
      | false =>
          rw [hpa] at hc
          simp only [if_neg Bool.false_ne_true, Nat.add_zero] at hc
          have hxas : x ∈ as := by
            rcases List.mem_cons.mp hx with h | h
            · rw [h] at hpx; rw [hpx] at hpa; exact absurd hpa (by simp)
            · exact h
          have hyas : y ∈ as := by
            rcases List.mem_cons.mp hy with h | h
            · rw [h] at hpy; rw [hpy] at hpa; exact absurd hpa (by simp)
            · exact h
          exact ih hc x hxas hpx y hyas hpy

/-- Lookup via `find?` is stable under permutation when at most one entry matches. -/
theorem find?_eq_of_perm {α : Type} (p : α → Bool) (l l2 : List α)
    (hperm : List.Perm l l2) (hc : l.countP p ≤ 1) :
    l.find? p = l2.find? p := by
  cases h1 : l.find? p with
  | none =>
      cases h2 : l2.find? p with
      | none => rfl
      | some y =>
          have hy : p y = true := List.find?_some h2
          have hmem : y ∈ l := (hperm.mem_iff).mpr (List.mem_of_find?_eq_some h2)
          exact absurd hy (List.find?_eq_none.mp h1 y hmem)
  | some x =>
      have hx : p x = true := List.find?_some h1
      have hmemx : x ∈ l := List.mem_of_find?_eq_some h1
      cases h2 : l2.find? p with
      | none =>
          exact absurd hx
            (List.find?_eq_none.mp h2 x ((hperm.mem_iff).mp hmemx))
      | some y =>
          have hy : p y = true := List.find?_some h2
          have hmemy : y ∈ l :=
            (hperm.mem_iff).mpr (List.mem_of_find?_eq_some h2)
          rw [eq_of_countP_le_one p l hc x hmemx hx y hmemy hy]

/-- Task indices below the starting index do not occur in the task list. -/
theorem countP_mkTasks_eq_zero {R : Type}
    (engine : ExtractorState → Except String R) (opts : BatchOptions)
    (completesAt : Nat → Nat) :
    ∀ (us : List String) (b i : Nat), i < b →
      (mkTasks engine opts completesAt b us).countP (fun t => t.1 == i) = 0 := by
  intro us
  induction us with
  | nil => intro b i _; rfl
  | cons u us ih =>
      intro b i hi
      have hbi : (b == i) = false := by
        simp only [beq_eq_false_iff_ne, ne_eq]
        omega
      have h0 := ih (b + 1) i (Nat.lt_succ_of_lt hi)
      simp [mkTasks, List.countP_cons, hbi, h0]

/-- Each slot index occurs at most once in the task list. -/
theorem countP_mkTasks_le_one {R : Type}
    (engine : ExtractorState → Except String R) (opts : BatchOptions)
    (completesAt : Nat → Nat) :
    ∀ (us : List String) (b i : Nat),
      (mkTasks engine opts completesAt b us).countP (fun t => t.1 == i) ≤ 1 := by
  intro us
  induction us with
  | nil => intro b i; simp [mkTasks]
  | cons u us ih =>
      intro b i
      cases hbi : (b == i) with
      | true =>
          have hb : b = i := eq_of_beq hbi
          have h0 := countP_mkTasks_eq_zero engine opts completesAt us (b + 1) i
            (by omega)
          simp [mkTasks, List.countP_cons, hbi, h0]
      | false =>
          have h1 := ih (b + 1) i
          simp only [mkTasks, List.countP_cons, hbi]
          simpa using h1

/-- The gather slot read-out only inspects the completed-task list through
`find?` at the probed indices. -/
theorem gatherSlots_congr {R : Type} (l l2 : List (Nat × Nat × Option R)) :
    ∀ n b : Nat,
      (∀ i, b ≤ i →
        l.find? (fun t => t.1 == i) = l2.find? (fun t => t.1 == i)) →
      gatherSlots l b n = gatherSlots l2 b n := by
  intro n
  induction n with
  | zero => intro b _; rfl
  | succ m ih =>
      intro b hf
      have hrec := ih (b + 1) (fun i hi => hf i (Nat.le_of_succ_le hi))
      simp only [gatherSlots]
      rw [hf b (Nat.le_refl b)]
      cases (l2.find? (fun t => t.1 == b)).bind (fun t => t.2.2) with
      | none => exact hrec
      | some r => rw [hrec]

/-- Reading the slots of the unsorted task list back in index order yields
the per-URL outcomes in input order, failures dropped. -/
theorem gatherSlots_mkTasks {R : Type}
    (engine : ExtractorState → Except String R) (opts : BatchOptions)
    (completesAt : Nat → Nat) :
    ∀ (us : List String) (b : Nat),
      gatherSlots (mkTasks engine opts completesAt b us) b us.length
        = (us.map (extract_one engine opts)).filterMap id := by
  intro us
  induction us with
  | nil => intro b; rfl
  | cons u us ih =>
      intro b
      have hhead : (mkTasks engine opts completesAt b (u :: us)).find?
          (fun t => t.1 == b)
            = some (b, completesAt b, extract_one engine opts u) := by
        simp [mkTasks, List.find?]
      have hdrop : gatherSlots (mkTasks engine opts completesAt b (u :: us))
          (b + 1) us.length
            = gatherSlots (mkTasks engine opts completesAt (b + 1) us)
                (b + 1) us.length := by
        apply gatherSlots_congr
        intro i hi
        have hne : (b == i) = false := by
          simp only [beq_eq_false_iff_ne, ne_eq]
          omega
        simp [mkTasks, List.find?, hne]
      cases hr : extract_one engine opts u with
      | none =>
          simp [gatherSlots, hhead, hr, hdrop, ih (b + 1), List.filterMap_cons]
      | some r =>
          simp [gatherSlots, hhead, hr, hdrop, ih (b + 1), List.filterMap_cons]

/-!
Claim theorems.
-/

/-- C1: on a `WebExtractor` or `AsyncWebExtractor` on which no `extract_*`
call has been made (any sequence of non-`extract_*` configuration calls is
allowed), `run()` fails with the zero-activities configuration error and the
engine is invoked zero times. -/
theorem c1_run_without_activities {R : Type}
    (engine : ExtractorState → Except String R) (url : String)
    (html : Option String) (calls : List ConfigCall)
    (h : ∀ c ∈ calls, c.isExtract = false) :
    WebExtractor.run engine (applyCalls (WebExtractor.init url html) calls)
        = (Except.error RunError.noActivities, 0)
    ∧ AsyncWebExtractor.run engine
        (applyCallsAsync (AsyncWebExtractor.init url html) calls)
        = (Except.error RunError.noActivities, 0) := by
  have hsync : (applyCalls (WebExtractor.init url html) calls).activitiesSet
      = false :=
    applyCalls_activitiesSet_false calls _ rfl h
  have hasy : applyCallsAsync (AsyncWebExtractor.init url html) calls
      = applyCalls (WebExtractor.init url html) calls := by
    simp [applyCallsAsync, applyCalls, applyCallAsync_eq_applyCall,
      asyncInit_eq_init]
  constructor
  · simp [WebExtractor.run, hsync]
  · rw [asyncRun_eq_run, hasy]
    simp [WebExtractor.run, hsync]

/-- Witness for C1 at a concrete non-`extract_*` call sequence. -/
theorem c1_witness :
    WebExtractor.run (fun _ => Except.ok (0 : Nat))
        (applyCalls (WebExtractor.init "https://example.com" none)
          [ConfigCall.setUserAgent "agent", ConfigCall.clearRobotsCache])
      = (Except.error RunError.noActivities, 0) :=
  (c1_run_without_activities (fun _ => Except.ok (0 : Nat))
    "https://example.com" none
    [ConfigCall.setUserAgent "agent", ConfigCall.clearRobotsCache]
    (by decide)).1

/-- C2: the effective link filter of `extract_links` (both classes) is
`["all"]` when `all` is set, when both `internal` and `external` are set,
or when none of the three is set; otherwise it is `["internal"]` when
exactly `internal` is set and `["external"]` when exactly `external` is
set. -/
theorem c2_link_filter_precedence (s : ExtractorState)
    (internal external all : Bool) :
    (WebExtractor.extract_links s internal external all).linksFields
        = some (if all || (internal && external) || (!internal && !external)
            then ["all"]
            else if internal then ["internal"] else ["external"])
    ∧ (AsyncWebExtractor.extract_links s internal external all).linksFields
        = some (if all || (internal && external) || (!internal && !external)
            then ["all"]
            else if internal then ["internal"] else ["external"]) := by
  cases internal <;> cases external <;> cases all <;> exact ⟨rfl, rfl⟩

/-- C3 (amended): for each metadata-category call, an omitted selector
(`fields=None`) collapses to `["all"]` and emits exactly the one fixed
advisory diagnostic, while an explicit `fields=["all"]` yields the same
selection with no diagnostic.  (An empty list, by contrast, is passed on
verbatim — see the counterexample.) -/
theorem c3_field_omission_diagnostic (s : ExtractorState) :
    ((WebExtractor.extract_socials s none).1.socialsFields = some ["all"]
      ∧ (WebExtractor.extract_socials s none).2 = [FIELDS_WARNING_MESSAGE]
      ∧ (WebExtractor.extract_socials s (some ["all"])).1.socialsFields
          = (WebExtractor.extract_socials s none).1.socialsFields
      ∧ (WebExtractor.extract_socials s (some ["all"])).2 = [])
    ∧ ((WebExtractor.extract_video s none).1.videoFields = some ["all"]
      ∧ (WebExtractor.extract_video s none).2 = [FIELDS_WARNING_MESSAGE]
      ∧ (WebExtractor.extract_video s (some ["all"])).1.videoFields
          = (WebExtractor.extract_video s none).1.videoFields
      ∧ (WebExtractor.extract_video s (some ["all"])).2 = [])
    ∧ ((WebExtractor.extract_product s none).1.productFields = some ["all"]
      ∧ (WebExtractor.extract_product s none).2 = [FIELDS_WARNING_MESSAGE]
      ∧ (WebExtractor.extract_product s (some ["all"])).1.productFields
          = (WebExtractor.extract_product s none).1.productFields
      ∧ (WebExtractor.extract_product s (some ["all"])).2 = [])
    ∧ ((WebExtractor.extract_article s none).1.articleFields = some ["all"]
      ∧ (WebExtractor.extract_article s none).2 = [FIELDS_WARNING_MESSAGE]
      ∧ (WebExtractor.extract_article s (some ["all"])).1.articleFields
          = (WebExtractor.extract_article s none).1.articleFields
      ∧ (WebExtractor.extract_article s (some ["all"])).2 = []) :=
  ⟨⟨rfl, rfl, rfl, rfl⟩, ⟨rfl, rfl, rfl, rfl⟩,
   ⟨rfl, rfl, rfl, rfl⟩, ⟨rfl, rfl, rfl, rfl⟩⟩

/-- Counterexample for C3 as stated: passing an explicitly empty list
`fields=[]` does not behave like the `["all"]` sentinel — the empty list is
passed on verbatim and no diagnostic is emitted. -/
theorem c3_empty_selector_counterexample :
    (WebExtractor.extract_socials (WebExtractor.init "https://example.com" none)
        (some [])).2 = []
    ∧ (WebExtractor.extract_socials (WebExtractor.init "https://example.com" none)
        (some [])).1.socialsFields = some []
    ∧ ¬((WebExtractor.extract_socials
          (WebExtractor.init "https://example.com" none)
          (some [])).1.socialsFields = some ["all"]
        ∧ (WebExtractor.extract_socials
            (WebExtractor.init "https://example.com" none)
            (some [])).2 = [FIELDS_WARNING_MESSAGE]) := by
  refine ⟨rfl, rfl, fun hc => ?_⟩
  have h1 := hc.1
  simp [WebExtractor.extract_socials, WebExtractor.init] at h1

/-- C4: `batch_extract` over `N` targets of which `k` tasks fail returns
exactly `N - k` entries (failed tasks contribute nothing, and the function
is total, so no exception escapes the batch call). -/
theorem c4_batch_partial_failure {R : Type}
    (engine : ExtractorState → Except String R) (urls : List String)
    (opts : BatchOptions) (mc : Nat) :
    (batch_extract engine urls opts mc).length
      = urls.length
        - urls.countP (fun u => (extract_one engine opts u).isNone) := by
  unfold batch_extract
  rw [length_filterMap_id]
  simp [List.countP_map, Function.comp_def]

/-- C6: under concurrency cap `cap`, every reachable scheduler state of a
`batch_extract` call has at most `cap` tasks in flight, and whenever a task
slot is free and a target is still queued the next target can be admitted. -/
theorem c6_semaphore_bound (cap n : Nat) (s : BatchSchedState)
    (h : BatchReachable cap n s) :
    s.inflight ≤ cap
    ∧ (0 < s.pending → s.inflight < cap →
        BatchStep cap s ⟨s.pending - 1, s.inflight + 1, s.finished⟩) := by
  refine ⟨?_, fun hp hc => BatchStep.start s hp hc⟩
  induction h with
  | init => exact Nat.zero_le cap
  | step t t2 hr hs ih =>
      cases hs with
      | start hp hc => exact hc
      | finish hi => exact le_trans (Nat.sub_le _ _) ih

/-- Witness for C6: after admitting one of 20 targets under cap 5, one task
is in flight, within the cap. -/
theorem c6_witness : (⟨19, 1, 0⟩ : BatchSchedState).inflight ≤ 5 :=
  (c6_semaphore_bound 5 20 ⟨19, 1, 0⟩
    (BatchReachable.step ⟨20, 0, 0⟩ ⟨19, 1, 0⟩ BatchReachable.init
      (BatchStep.start ⟨20, 0, 0⟩ (by decide) (by decide)))).1

/-- C7: on `with`-scope exit the in-memory robots cache tier is empty no
matter what the body did, and the exception raised by the body (if any) is
propagated unchanged (never suppressed). -/
theorem c7_scope_exit_clears_cache (s : ExtractorState)
    (body : ExtractorState → ExtractorState × Option String) :
    (runWithScope s body).1.robotsLocalCache = []
    ∧ (runWithScope s body).2 = (body s).2 :=
  ⟨rfl, rfl⟩

/-- C8 (amended): for every non-negative argument, `set_timeout` hands the
underlying extractor the non-negative integer `int(timeout_secs)` (both
classes); the coercion of a negative argument can yield a negative value —
the counterexample exhibits `-5`. -/
theorem c8_timeout_coercion (s : ExtractorState) (t : ℚ) (h : 0 ≤ t) :
    (WebExtractor.set_timeout s t).timeoutSecs = some (pyInt t)
    ∧ (AsyncWebExtractor.set_timeout s t).timeoutSecs = some (pyInt t)
    ∧ 0 ≤ pyInt t := by
  refine ⟨rfl, rfl, ?_⟩
  unfold pyInt
  rw [if_pos h]
  exact Int.floor_nonneg.mpr h

/-- Witness for C8 at `timeout_secs = 7/2`. -/
theorem c8_witness : (0 : ℚ) ≤ 7 / 2 ∧ 0 ≤ pyInt (7 / 2) :=
  ⟨by norm_num,
   (c8_timeout_coercion (WebExtractor.init "https://example.com" none)
      (7 / 2) (by norm_num)).2.2⟩

/-- Counterexample for C8 as stated: `set_timeout(-5)` hands the underlying
extractor the negative integer `-5`. -/
theorem c8_negative_timeout_counterexample :
    (WebExtractor.set_timeout (WebExtractor.init "https://example.com" none)
        (-5)).timeoutSecs = some (-5)
    ∧ (-5 : Int) < 0 := by
  constructor
  · show some (pyInt (-5)) = some (-5)
    have h5 : pyInt (-5) = -5 := by
      unfold pyInt
      rw [if_neg (by norm_num)]
      have hcast : ((-5 : ℤ) : ℚ) = (-5 : ℚ) := by norm_num
      rw [← hcast, Int.ceil_intCast]
    rw [h5]
  · decide

/-- C9: once `_activities_set` is set, no configuration call (on either
class) clears it, so `run()`s zero-activities validation cannot fail after
the first `extract_*` call. -/
theorem c9_activities_monotonic (s : ExtractorState) (calls : List ConfigCall)
    (h : s.activitiesSet = true) :
    (applyCalls s calls).activitiesSet = true
    ∧ (applyCallsAsync s calls).activitiesSet = true
    ∧ ∀ {R : Type} (engine : ExtractorState → Except String R),
        (WebExtractor.run engine (applyCalls s calls)).1
          ≠ Except.error RunError.noActivities := by
  have h1 := applyCalls_activitiesSet_true calls s h
  have h2 : applyCallsAsync s calls = applyCalls s calls := by
    simp [applyCallsAsync, applyCalls, applyCallAsync_eq_applyCall]
  refine ⟨h1, by rw [h2]; exact h1, ?_⟩
  intro R engine
  simp only [WebExtractor.run, h1]
  cases engine (applyCalls s calls) <;> simp

/-- Witness for C9: after `extract_text`, a robots-cache clear leaves
`_activities_set` set. -/
theorem c9_witness :
    (applyCalls
        (WebExtractor.extract_text
          (WebExtractor.init "https://example.com" none) false)
        [ConfigCall.clearRobotsCache]).activitiesSet = true :=
  (c9_activities_monotonic
    (WebExtractor.extract_text (WebExtractor.init "https://example.com" none)
      false)
    [ConfigCall.clearRobotsCache] rfl).1

/-- C10: `batch_extract` with every activity flag explicitly disabled
returns the empty list (every task fails the zero-activities validation,
is caught at the task boundary and dropped). -/
theorem c10_all_flags_disabled_empty {R : Type}
    (engine : ExtractorState → Except String R) (urls : List String)
    (mc : Nat) :
    batch_extract engine urls
        ⟨false, false, false, false, false, false, false, false, false⟩ mc
      = [] := by
  induction urls with
  | nil => rfl
  | cons u us ih =>
      have hone : extract_one engine
          ⟨false, false, false, false, false, false, false, false, false⟩ u
            = none := rfl
      simp only [batch_extract, List.map_cons, List.filterMap_cons, hone]
      exact ih

/-- C5 (amended): whatever order the tasks complete in, the retained
successful entries of `batch_extract` appear in the input order of the
non-failed subset (`asyncio.gather` stores outcomes positionally), so the
output equals the schedule-free `batch_extract` value; indices still shift
when a task fails, since failed entries are dropped rather than replaced by
placeholders. -/
theorem c5_batch_output_input_order {R : Type}
    (engine : ExtractorState → Except String R) (urls : List String)
    (opts : BatchOptions) (completesAt : Nat → Nat) (mc : Nat) :
    batch_extract_timed engine urls opts completesAt
      = batch_extract engine urls opts mc := by
  unfold batch_extract_timed batch_extract
  have hperm := sortByKey_perm (fun t : Nat × Nat × Option R => t.2.1)
    (mkTasks engine opts completesAt 0 urls)
  have hfind : ∀ i, (0 : Nat) ≤ i →
      (sortByKey (fun t : Nat × Nat × Option R => t.2.1)
          (mkTasks engine opts completesAt 0 urls)).find? (fun t => t.1 == i)
        = (mkTasks engine opts completesAt 0 urls).find? (fun t => t.1 == i) := by
    intro i _
    apply find?_eq_of_perm _ _ _ hperm
    rw [hperm.countP_eq]
    exact countP_mkTasks_le_one engine opts completesAt urls 0 i
  rw [gatherSlots_congr _ _ urls.length 0 hfind]
  exact gatherSlots_mkTasks engine opts completesAt urls 0

/-- Counterexample for C5 as stated: with targets `["a", "b", "c"]` where
`"b"` fails, and a schedule under which task 2 completes before task 0, the
batch output (`["a", "c"]`, input order) differs from the spec's
completion-order reading (`["c", "a"]`). -/
theorem c5_completion_order_counterexample :
    batch_extract_timed
        (fun s => if s.url == "b" then Except.error "boom" else Except.ok s.url)
        ["a", "b", "c"]
        ⟨true, false, false, false, false, false, false, false, false⟩
        (fun i => if i == 0 then 3 else i)
      ≠ batchCompletionOrderSpec
        (fun s => if s.url == "b" then Except.error "boom" else Except.ok s.url)
        ["a", "b", "c"]
        ⟨true, false, false, false, false, false, false, false, false⟩
        (fun i => if i == 0 then 3 else i)
    ∧ extract_one
        (fun s => if s.url == "b" then Except.error "boom" else Except.ok s.url)
        ⟨true, false, false, false, false, false, false, false, false⟩ "b"
      = none :=
  ⟨by decide, rfl⟩

end Ferriscope
